import Mathlib

/-!
Verification development for the libbw64 BW64/RF64 audio container library
(headers `reader.hpp`, `writer.hpp`, `parser.hpp`, `chunks_ext.hpp`).

The C++ sources are shallowly embedded: machine integers (`uint16_t`,
`uint32_t`, `uint64_t`) become `Nat` with explicit `% 2^32` where the C++
arithmetic wraps, exceptions become `Except`, and the mutable chunk
collections of `Bw64Reader` / `Bw64Writer` become explicit state values.
Byte-level stream I/O (`utils.hpp`, which only ships little-endian
field readers/writers) is embedded at field granularity: a parser receives
the already-decoded fields that `utils::readValue` would produce at the
corresponding stream offsets, together with the declared chunk size.

The headers `chunks.hpp` and `utils.hpp` are not part of the sources at
hand; the handful of entities from them that the claims depend on
(`FormatInfoChunk` derived-field accessors and constructor validation,
`DataSize64Chunk`) are modelled from the specification and marked as such
in their doc comments.
-/

namespace Bw64

/-- Little-endian four-character code, as computed by `utils::fourCC`:
the first character is the least significant byte of the 32-bit value. -/
def fourCC (s : String) : Nat :=
  match s.toList with
  | [a, b, c, d] => a.toNat + b.toNat * 256 + c.toNat * 65536 + d.toNat * 16777216
  | _ => 0

/-- The C++ constant `UINT32_MAX`. -/
def U32MAX : Nat := 4294967295

/-- In-memory cue point record, mirroring `struct CuePoint` in
`chunks_ext.hpp`: six `uint32_t` fields plus the in-memory `label`
string (serialized separately through `labl` sub-chunks). -/
structure CuePoint where
  id : Nat
  position : Nat
  dataChunkId : Nat
  chunkStart : Nat
  blockStart : Nat
  sampleOffset : Nat
  label : String
deriving Repr, DecidableEq

/-- Ordering used by the `std::sort` calls in `CueChunk::addCuePoint`
(comparator `a.position < b.position`, which sorts into non-decreasing
position order). -/
def posLE (a b : CuePoint) : Prop := a.position ≤ b.position

instance : DecidableRel posLE := fun a b => Nat.decLe a.position b.position

instance : IsTotal CuePoint posLE := ⟨fun a b => Nat.le_total a.position b.position⟩

instance : IsTrans CuePoint posLE := ⟨fun _ _ _ h1 h2 => Nat.le_trans h1 h2⟩

/-- Errors raised by the library (C++ `std::runtime_error` with the
various messages appearing in the sources). -/
inductive BwError where
  | duplicateCueId
  | noCueChunkReserved
  | noSuchChunk
  | capacityExceeded
  | chunkTooSmall
  | sizeMismatch
  | formatUnsupported
  | sanityCheckFailed
  | invalidArgument
  | endOfStream
deriving Repr, DecidableEq

/-- Place-position sort performed at the end of both `CueChunk::addCuePoint`
overloads.  `std::sort` only guarantees a permutation that is sorted with
respect to the comparator (tie order is unspecified); `List.insertionSort`
is one realization of that contract. -/
def sortByPosition (l : List CuePoint) : List CuePoint :=
  List.insertionSort posLE l

/-- The `CueChunk::addCuePoint(const CuePoint&)` overload
(`chunks_ext.hpp`): reject a duplicate id, otherwise push the point and
re-sort by position.  The exception becomes `Except.error`. -/
def addCuePointCue (ps : List CuePoint) (cue : CuePoint) : Except BwError (List CuePoint) :=
  match ps.find? (fun cp => cp.id == cue.id) with
  | some _ => .error .duplicateCueId
  | none => .ok (sortByPosition (ps ++ [cue]))

/-- The `CueChunk::addCuePoint(uint32_t, uint64_t, const std::string&)`
overload: reject a duplicate id, otherwise build the cue point exactly as
the source does (`dataChunkId = 'data'`, zero `chunkStart`/`blockStart`,
`position` and `sampleOffset` truncated to `uint32_t`), push it and
re-sort by position. -/
def addCuePointNew (ps : List CuePoint) (id : Nat) (position : Nat) (label : String) :
    Except BwError (List CuePoint) :=
  match ps.find? (fun cp => cp.id == id) with
  | some _ => .error .duplicateCueId
  | none =>
      let cue : CuePoint :=
        { id := id
        , position := position % 4294967296
        , dataChunkId := fourCC "data"
        , chunkStart := 0
        , blockStart := 0
        , sampleOffset := position % 4294967296
        , label := label }
      .ok (sortByPosition (ps ++ [cue]))

/-- State-passing view of `CueChunk::addCuePoint(const CuePoint&)`.  In the
C++ code the duplicate-id check and `throw` happen before `push_back`, so
on failure the vector of cue points is left exactly as it was; the second
component is the cue point list after the call. -/
def addCuePointSt (ps : List CuePoint) (cue : CuePoint) :
    Except BwError (List CuePoint) × List CuePoint :=
  match addCuePointCue ps cue with
  | .ok ps' => (.ok ps', ps')
  | .error e => (.error e, ps)

/-- Field-level serialization of `CueChunk::write`: the `uint32_t` count
followed by the six `uint32_t` fields of each cue point, in list order.
The in-memory `label` is not serialized here. -/
def writeCueChunk (ps : List CuePoint) : List Nat :=
  (ps.length % 4294967296) ::
    ps.flatMap (fun c => [c.id, c.position, c.dataChunkId, c.chunkStart, c.blockStart, c.sampleOffset])

/-- Payload size of a cue chunk, `CueChunk::size()`: 4 bytes of count plus
24 bytes per cue point. -/
def cueChunkSize (ps : List CuePoint) : Nat := 4 + 24 * ps.length

/-- Sub-chunk of a `LIST` chunk, as materialized by `parseListChunk`:
either a parsed `labl` chunk (`LabelChunk`), or an `UnknownChunk`
placeholder whose bytes were skipped. -/
inductive SubChunk where
  | labl (cuePointId : Nat) (label : String)
  | unknown (id : Nat)
deriving Repr, DecidableEq

/-- Parsed chunk as held in `Bw64Reader::chunks_`.  Only the variants the
marker claims observe are distinguished; every other chunk is `other` with
its FOURCC id.  By construction of `parseChunk`, a chunk with id `'cue '`
is always a `CueChunk` and a chunk with id `'LIST'` is always a
`ListChunk`, which is what licenses the `static_pointer_cast` downcasts in
the reader. -/
inductive RChunk where
  | cue (points : List CuePoint)
  | list (listType : Nat) (subChunks : List SubChunk)
  | other (id : Nat)
deriving Repr, DecidableEq

/-- Chunk id, as exposed by the virtual `id()` member. -/
def RChunk.id : RChunk → Nat
  | .cue _ => fourCC "cue "
  | .list _ _ => fourCC "LIST"
  | .other i => i

/-- The reader helper `chunk<CueChunk>(chunks_, fourCC("cue "))` followed by
`cuePoints()`: `std::find_if` scans for the first chunk whose `id()` is
`'cue '` and the result is downcast to `CueChunk`.  Returns `none` when no
such chunk exists (the downcast cannot encounter a non-`cue` variant for
this id, see `RChunk`). -/
def getCueChunk : List RChunk → Option (List CuePoint)
  | [] => none
  | c :: rest =>
      if c.id = fourCC "cue " then
        match c with
        | RChunk.cue ps => some ps
        | _ => none
      else getCueChunk rest

/-- Inner loop of `Bw64Reader::getMarkers`: give the label `lab` to the
first marker whose `id` equals `cid` (the loop `break`s after the first
match). -/
def setFirstLabel (ms : List CuePoint) (cid : Nat) (lab : String) : List CuePoint :=
  match ms with
  | [] => []
  | m :: rest =>
      if m.id = cid then { m with label := lab } :: rest
      else m :: setFirstLabel rest cid lab

/-- Apply one `LIST` sub-chunk to the marker list, as in
`Bw64Reader::getMarkers`: only `labl` sub-chunks have an effect. -/
def applySub (ms : List CuePoint) : SubChunk → List CuePoint
  | SubChunk.labl cid lab => setFirstLabel ms cid lab
  | SubChunk.unknown _ => ms

/-- Apply one chunk of the reader's chunk collection to the marker list, as
in `Bw64Reader::getMarkers`: only `LIST` chunks with list type `'adtl'`
contribute, and their sub-chunks are processed in order. -/
def applyChunkLabels (ms : List CuePoint) : RChunk → List CuePoint
  | RChunk.list lt subs => if lt = fourCC "adtl" then subs.foldl applySub ms else ms
  | _ => ms

/-- The `Bw64Reader::getMarkers` member: copy the cue points of the cue
chunk (empty result when there is none), then walk all `LIST/adtl` chunks
and annotate markers with the labels of their `labl` sub-chunks. -/
def getMarkers (cs : List RChunk) : List CuePoint :=
  match getCueChunk cs with
  | none => []
  | some ps => cs.foldl applyChunkLabels ps

/-- The `Bw64Reader::findMarkerById` member: `nullptr` (here `none`) when
there is no cue chunk, otherwise the first cue point with the given id. -/
def findMarkerById (cs : List RChunk) (id : Nat) : Option CuePoint :=
  match getCueChunk cs with
  | none => none
  | some ps => ps.find? (fun cp => cp.id == id)

/-- Label entries contributed by one chunk to the `cueLabels` map built in
`Bw64Reader::associateCueLabels`: the `(cuePointId, label)` pairs of the
`labl` sub-chunks of a `LIST/adtl` chunk, in order. -/
def adtlEntries : RChunk → List (Nat × String)
  | RChunk.list lt subs =>
      if lt = fourCC "adtl" then
        subs.filterMap (fun s =>
          match s with
          | SubChunk.labl cid lab => some (cid, lab)
          | SubChunk.unknown _ => none)
      else []
  | _ => []

/-- All `(cuePointId, label)` pairs found in `LIST/adtl` chunks, in the
order `associateCueLabels` inserts them into its `std::map`. -/
def collectAdtlLabels (cs : List RChunk) : List (Nat × String) :=
  cs.flatMap adtlEntries

/-- Lookup in the `std::map<uint32_t, std::string> cueLabels` built by
`associateCueLabels`: since `cueLabels[id] = label` overwrites, the map
holds, for each key, the label of the last entry inserted with that key. -/
def lookupLast (es : List (Nat × String)) (k : Nat) : Option String :=
  match es with
  | [] => none
  | e :: rest =>
      match lookupLast rest k with
      | some v => some v
      | none => if e.1 = k then some e.2 else none

/-- Per-point effect of the label map built by `associateCueLabels`: a
point whose id is a key of the map gets that key's label; any other point
is untouched. -/
def applyLabelMap (es : List (Nat × String)) (p : CuePoint) : CuePoint :=
  match lookupLast es p.id with
  | some lab => { p with label := lab }
  | none => p

/-- Label update performed on the cue chunk's points by
`Bw64Reader::associateCueLabels`: each point whose id is a key of the
label map gets that label; the others are untouched. -/
def assocPoints (cs : List RChunk) (ps : List CuePoint) : List CuePoint :=
  ps.map (applyLabelMap (collectAdtlLabels cs))

/-- Replace the points of the first `cue ` chunk in the collection, which
is how `associateCueLabels` mutates through `cuePointsRef()`. -/
def setFirstCue (cs : List RChunk) (ps : List CuePoint) : List RChunk :=
  match cs with
  | [] => []
  | c :: rest =>
      if c.id = fourCC "cue " then
        (match c with
         | RChunk.cue _ => RChunk.cue ps
         | c' => c') :: rest
      else c :: setFirstCue rest ps

/-- The `Bw64Reader::associateCueLabels` member, run once at the end of the
reader constructor: no-op without a cue chunk, otherwise update the cue
chunk's points with the labels gathered from all `LIST/adtl` chunks. -/
def associateCueLabels (cs : List RChunk) : List RChunk :=
  match getCueChunk cs with
  | none => cs
  | some ps => setFirstCue cs (assocPoints cs ps)

/-- Position-sortedness of a marker list, as asserted by the spec's marker
association law. -/
def sortedByPosition (l : List CuePoint) : Prop :=
  List.Pairwise posLE l

instance : DecidablePred sortedByPosition := fun l =>
  inferInstanceAs (Decidable (List.Pairwise posLE l))

/-- Format tag constants `WAVE_FORMAT_PCM`, `WAVE_FORMAT_IEEE_FLOAT`,
`WAVE_FORMAT_EXTENSIBLE`. -/
def WAVE_FORMAT_PCM : Nat := 1

/-- See `WAVE_FORMAT_PCM`. -/
def WAVE_FORMAT_IEEE_FLOAT : Nat := 3

/-- See `WAVE_FORMAT_PCM`. -/
def WAVE_FORMAT_EXTENSIBLE : Nat := 65534

/-- The 22 bytes of `fmt ` extra data for `WAVE_FORMAT_EXTENSIBLE`:
`validBitsPerSample`, `dwChannelMask` and the sub-format GUID, of which
the parser only inspects the first 32-bit field `Data1`. -/
structure ExtraDataS where
  validBitsPerSample : Nat
  dwChannelMask : Nat
  subFormatData1 : Nat
  subFormatData2 : Nat
  subFormatData3 : Nat
  subFormatData4 : Nat
deriving Repr, DecidableEq

/-- In-memory `fmt ` chunk contents. Modelled from the spec: the class
`FormatInfoChunk` lives in `chunks.hpp`, which is not among the sources at
hand; per the spec (§3) it stores `formatTag`, `channelCount`,
`sampleRate`, `bitsPerSample` and the optional extra data, and derives
`blockAlignment` and `bytesPerSecond`. -/
structure FormatInfoChunk where
  channelCount : Nat
  sampleRate : Nat
  bitsPerSample : Nat
  extraData : Option ExtraDataS
  formatTag : Nat
deriving Repr, DecidableEq

/-- Modelled from the spec: derived field
`blockAlignment = channelCount * bitsPerSample / 8` (integer division) of
`FormatInfoChunk`, defined in the absent `chunks.hpp`. -/
def FormatInfoChunk.blockAlignment (f : FormatInfoChunk) : Nat :=
  f.channelCount * f.bitsPerSample / 8

/-- Modelled from the spec: derived field
`bytesPerSecond = sampleRate * blockAlignment` of `FormatInfoChunk`,
defined in the absent `chunks.hpp`. -/
def FormatInfoChunk.bytesPerSecond (f : FormatInfoChunk) : Nat :=
  f.sampleRate * f.blockAlignment

/-- Modelled from the spec: the `FormatInfoChunk` constructor (absent
`chunks.hpp`) fails on `channelCount = 0`, `sampleRate = 0`, and on
overflow of the derived fields (`blockAlignment` is a `uint16_t`,
`bytesPerSecond` a `uint32_t`; "overflow of derived fields in construction
is a failure"). -/
def mkFormatInfoChunk (channelCount sampleRate bitsPerSample : Nat)
    (extraData : Option ExtraDataS) (formatTag : Nat) :
    Except BwError FormatInfoChunk :=
  if channelCount = 0 then .error .invalidArgument
  else if sampleRate = 0 then .error .invalidArgument
  else if channelCount * bitsPerSample / 8 ≥ 65536 then .error .invalidArgument
  else if sampleRate * (channelCount * bitsPerSample / 8) ≥ 4294967296 then .error .invalidArgument
  else .ok
    { channelCount := channelCount
    , sampleRate := sampleRate
    , bitsPerSample := bitsPerSample
    , extraData := extraData
    , formatTag := formatTag }

/-- The second half of `parseFormatInfoChunk`: construct the chunk object
and run the two sanity checks against the stored `blockAlignment` and
`bytesPerSecond` fields. -/
def finishFormatInfoChunk (channelCount sampleRate bitsPerSample : Nat)
    (extraData : Option ExtraDataS) (formatTag : Nat)
    (storedBytesPerSecond storedBlockAlignment : Nat) :
    Except BwError FormatInfoChunk :=
  match mkFormatInfoChunk channelCount sampleRate bitsPerSample extraData formatTag with
  | .error e => .error e
  | .ok fmt =>
      if fmt.blockAlignment ≠ storedBlockAlignment then .error .sanityCheckFailed
      else if fmt.bytesPerSecond ≠ storedBytesPerSecond then .error .sanityCheckFailed
      else .ok fmt

/-- The `parseFormatInfoChunk` function of `parser.hpp`, at field
granularity: `size` is the declared 64-bit chunk size; `formatTag`,
`channelCount`, `sampleRate`, `bytesPerSecond`, `blockAlignment`,
`bitsPerSample`, `cbSize` and `extra` are the values the stream holds at
the corresponding offsets (`cbSize` and `extra` are only consumed on the
paths where the source reads them). -/
def parseFormatInfoChunk (size : Nat) (formatTag channelCount sampleRate : Nat)
    (bytesPerSecond blockAlignment bitsPerSample : Nat)
    (cbSize : Nat) (extra : ExtraDataS) : Except BwError FormatInfoChunk :=
  if size < 16 then .error .chunkTooSmall
  else if 18 ≤ size ∧ size ≠ 18 + cbSize then .error .sizeMismatch
  else if ¬ 18 ≤ size ∧ size ≠ 16 then .error .sizeMismatch
  else if formatTag = WAVE_FORMAT_PCM ∨ formatTag = WAVE_FORMAT_IEEE_FLOAT then
    if (if 18 ≤ size then cbSize else 0) ≠ 0 then .error .sizeMismatch
    else finishFormatInfoChunk channelCount sampleRate bitsPerSample none formatTag
      bytesPerSecond blockAlignment
  else if formatTag = WAVE_FORMAT_EXTENSIBLE then
    if (if 18 ≤ size then cbSize else 0) ≠ 22 then .error .sizeMismatch
    else if extra.subFormatData1 ≠ WAVE_FORMAT_PCM ∧ extra.subFormatData1 ≠ WAVE_FORMAT_IEEE_FLOAT then
      .error .formatUnsupported
    else finishFormatInfoChunk channelCount sampleRate bitsPerSample (some extra) formatTag
      bytesPerSecond blockAlignment
  else .error .formatUnsupported

/-- Raw 24-byte cue point record as it sits in a `cue ` chunk payload:
six little-endian `uint32_t` fields. -/
structure CueRec where
  id : Nat
  position : Nat
  dataChunkId : Nat
  chunkStart : Nat
  blockStart : Nat
  sampleOffset : Nat
deriving Repr, DecidableEq

/-- Conversion of a raw record to the in-memory `CuePoint` built by the
loop body of `parseCueChunk` (the `label` member stays default-empty). -/
def CueRec.toCuePoint (r : CueRec) : CuePoint :=
  { id := r.id
  , position := r.position
  , dataChunkId := r.dataChunkId
  , chunkStart := r.chunkStart
  , blockStart := r.blockStart
  , sampleOffset := r.sampleOffset
  , label := "" }

/-- The record-reading loop of `parseCueChunk`: read `n` records from the
stream; running out of stream bytes mid-structure is a failure (spec §4.1:
"The I/O layer must surface end-of-file mid-structure as a failure"). -/
def readCuePoints : Nat → List CueRec → Except BwError (List CuePoint)
  | 0, _ => .ok []
  | _ + 1, [] => .error .endOfStream
  | n + 1, r :: rs =>
      match readCuePoints n rs with
      | .ok ps => .ok (r.toCuePoint :: ps)
      | .error e => .error e

/-- The `parseCueChunk` function of `parser.hpp`.  `size` is the declared
64-bit chunk size (a `uint64_t`), `count` the `uint32_t` read from the
first four payload bytes, `records` the remaining payload at record
granularity.  The size check `size != 4 + numCuePoints * 24` is performed
in C++ on a `uint32_t` right-hand side (`numCuePoints` is `uint32_t`, `24`
and `4` are `int`), so the right-hand side wraps modulo 2^32 before being
widened for the comparison with the 64-bit `size`. -/
def parseCueChunk (size : Nat) (count : Nat) (records : List CueRec) :
    Except BwError (List CuePoint) :=
  if size < 4 then .error .chunkTooSmall
  else if size ≠ (4 + 24 * count) % 4294967296 then .error .sizeMismatch
  else readCuePoints count records

/-- Chunk header record `ChunkHeader {id, size, position}` kept in
`Bw64Writer::chunkHeaders_` (and `Bw64Reader::chunkHeaders_`). -/
structure ChunkHeader where
  id : Nat
  size : Nat
  position : Nat
deriving Repr, DecidableEq

/-- State of an open `Bw64Writer` as far as finalization is concerned:
the recorded chunk headers, the current end-of-file position (what
`seekp(0, end); tellp()` yields), the accumulated `data` chunk payload
size, the `useRf64Id_` flag, and the in-memory cue chunk (`none` when the
writer was opened with `maxMarkers == 0`, so no `cue ` chunk object
exists). -/
structure WriterState where
  chunkHeaders : List ChunkHeader
  fileEndPos : Nat
  dataSize : Nat
  useRf64Id : Bool
  cueChunk : Option (List CuePoint)
deriving Repr, DecidableEq

/-- The `Bw64Writer::riffChunkSize` member: the end-of-file position minus
the 8 bytes of the outer chunk header. -/
def riffChunkSize (s : WriterState) : Nat := s.fileEndPos - 8

/-- The `Bw64Writer::isBw64File` member: true when `riffChunkSize()`
exceeds `UINT32_MAX` or some recorded chunk header size does. -/
def isBw64File (s : WriterState) : Bool :=
  decide (riffChunkSize s > U32MAX) || s.chunkHeaders.any (fun h => decide (h.size > U32MAX))

/-- The `Bw64Writer::chunkHeader` lookup: the first recorded header with
the given id, or a `runtime_error` when there is none. -/
def findChunkHeader (headers : List ChunkHeader) (id : Nat) : Except BwError ChunkHeader :=
  match headers.find? (fun h => h.id == id) with
  | some h => .ok h
  | none => .error .noSuchChunk

/-- Size check of `Bw64Writer::overwriteChunk`: writing a chunk whose
payload is larger than the recorded (reserved) size of the chunk with the
given id is an error; the actual byte copy is not modelled. -/
def overwriteChunkCheck (headers : List ChunkHeader) (id : Nat) (newSize : Nat) :
    Except BwError Unit :=
  match findChunkHeader headers id with
  | .error e => .error e
  | .ok h => if newSize > h.size then .error .capacityExceeded else .ok ()

/-- Contents of the `ds64` chunk assembled by
`Bw64Writer::overwriteJunkWithDs64Chunk`.  Modelled from the spec:
`DataSize64Chunk` lives in the absent `chunks.hpp`; per the spec (§3, §6)
it carries `bw64Size`, `dataSize` and a table mapping FOURCC to 64-bit
sizes. -/
structure Ds64Content where
  bw64Size : Nat
  dataSize : Nat
  table : List (Nat × Nat)
deriving Repr, DecidableEq

/-- Modelled from the spec: `DataSize64Chunk::setChunkSize` inserts into
the chunk's FOURCC-to-size table (a `std::map`), replacing any entry with
the same id. -/
def setChunkSize (t : List (Nat × Nat)) (id sz : Nat) : List (Nat × Nat) :=
  if t.any (fun e => e.1 == id) then
    t.map (fun e => if e.1 = id then (id, sz) else e)
  else t ++ [(id, sz)]

/-- Modelled from the spec: `DataSize64Chunk::size()` per the ds64 wire
layout (§6): a 28-byte fixed header plus 12 bytes per table entry. -/
def ds64Size (d : Ds64Content) : Nat := 28 + 12 * d.table.length

/-- The ds64 chunk built by `Bw64Writer::overwriteJunkWithDs64Chunk`:
`bw64Size` is the current `riffChunkSize()`, `dataSize` the data chunk's
size (written even when small), and the table gets one `setChunkSize` call
per recorded header whose size exceeds `UINT32_MAX`, in header order. -/
def mkDs64 (s : WriterState) : Ds64Content :=
  { bw64Size := riffChunkSize s
  , dataSize := s.dataSize
  , table := s.chunkHeaders.foldl
      (fun t h => if h.size > U32MAX then setChunkSize t h.id h.size else t) [] }

/-- The outer RIFF header as rewritten by `finalizeRiffChunk`. -/
structure RiffHeaderOut where
  groupId : Nat
  groupSize : Nat
deriving Repr, DecidableEq

/-- The `Bw64Writer::finalizeRiffChunk` member.  On the BW64/RF64 path it
also calls `overwriteJunkWithDs64Chunk`, which overwrites the 40-byte
`JUNK` placeholder through `overwriteChunk` and therefore fails when the
assembled ds64 chunk does not fit the placeholder.  The result is the
rewritten outer header plus the ds64 contents when one was written. -/
def finalizeRiffChunk (s : WriterState) : Except BwError (RiffHeaderOut × Option Ds64Content) :=
  if isBw64File s then
    let d := mkDs64 s
    match overwriteChunkCheck s.chunkHeaders (fourCC "JUNK") (ds64Size d) with
    | .error e => .error e
    | .ok _ =>
        .ok ({ groupId := fourCC (if s.useRf64Id then "RF64" else "BW64")
             , groupSize := U32MAX }, some d)
  else
    .ok ({ groupId := fourCC "RIFF"
         , groupSize := riffChunkSize s % 4294967296 }, none)

/-- The `Bw64Writer::finalizeCueChunk` member, capacity aspect: when a cue
chunk exists and holds cue points, its serialized content is written over
the placeholder reserved at open through `overwriteChunk` (which fails if
the content exceeds the reserved size).  The member also queues a
`LIST/adtl` chunk holding the non-empty labels before the overwrite; that
queue is not observed by the capacity claims and is not modelled here. -/
def finalizeCueChunk (s : WriterState) : Except BwError Unit :=
  match s.cueChunk with
  | none => .ok ()
  | some ps =>
      if ps.isEmpty then .ok ()
      else overwriteChunkCheck s.chunkHeaders (fourCC "cue ") (cueChunkSize ps)

/-- The `Bw64Writer::addMarker(uint32_t, uint64_t, const std::string&)`
member: fails when no cue chunk was reserved at open, otherwise delegates
to `CueChunk::addCuePoint`. -/
def writerAddMarker (s : WriterState) (id position : Nat) (label : String) :
    Except BwError WriterState :=
  match s.cueChunk with
  | none => .error .noCueChunkReserved
  | some ps =>
      match addCuePointNew ps id position label with
      | .ok ps' => .ok { s with cueChunk := some ps' }
      | .error e => .error e

/-- The `Bw64Writer::addMarker(const CuePoint&)` member. -/
def writerAddMarkerCue (s : WriterState) (cue : CuePoint) : Except BwError WriterState :=
  match s.cueChunk with
  | none => .error .noCueChunkReserved
  | some ps =>
      match addCuePointCue ps cue with
      | .ok ps' => .ok { s with cueChunk := some ps' }
      | .error e => .error e

/-- Loop body of `Bw64Writer::addMarkers`: add each cue point in turn,
stopping at the first failure. -/
def addMarkersGo (ps : List CuePoint) : List CuePoint → Except BwError (List CuePoint)
  | [] => .ok ps
  | m :: ms =>
      match addCuePointCue ps m with
      | .ok ps' => addMarkersGo ps' ms
      | .error e => .error e

/-- The `Bw64Writer::addMarkers(const std::vector<CuePoint>&)` member:
fails when no cue chunk was reserved at open, otherwise adds every marker
through `CueChunk::addCuePoint`. -/
def writerAddMarkers (s : WriterState) (markers : List CuePoint) :
    Except BwError WriterState :=
  match s.cueChunk with
  | none => .error .noCueChunkReserved
  | some ps =>
      match addMarkersGo ps markers with
      | .ok ps' => .ok { s with cueChunk := some ps' }
      | .error e => .error e

/-- The three seek origins accepted by `Bw64Reader::seek`
(`std::ios::beg`, `std::ios::cur`, `std::ios::end`). -/
inductive SeekDir where
  | fromBegin
  | fromCurrent
  | fromEnding
deriving Repr, DecidableEq

/-- Frame-positioning state of a `Bw64Reader`: the data chunk payload
size, the format's block alignment, the stream position of the first data
byte (`dataStartPos()`), and the current stream position. -/
structure ReaderSeekState where
  dataSize : Nat
  blockAlignment : Nat
  dataStartPos : Nat
  pos : Nat
deriving Repr, DecidableEq

/-- The `Bw64Reader::numberOfFrames` member:
`dataChunk()->size() / blockAlignment()`. -/
def numberOfFrames (s : ReaderSeekState) : Nat := s.dataSize / s.blockAlignment

/-- The `Bw64Reader::tell` member: the current frame index derived from
the stream position. -/
def tell (s : ReaderSeekState) : Nat := (s.pos - s.dataStartPos) / s.blockAlignment

/-- Start frame selected by the `way` argument of `Bw64Reader::seek`. -/
def startFrame (s : ReaderSeekState) : SeekDir → Int
  | .fromBegin => 0
  | .fromCurrent => tell s
  | .fromEnding => numberOfFrames s

/-- The `Bw64Reader::seek` member: clamp the requested frame to
`[0, numberOfFrames]` and position the stream at
`dataStartPos + frame * blockAlignment`. -/
def seek (s : ReaderSeekState) (offset : Int) (way : SeekDir) : ReaderSeekState :=
  let n : Int := numberOfFrames s
  let frame0 : Int := startFrame s way + offset
  let frame : Int := if frame0 < 0 then 0 else if frame0 > n then n else frame0
  let framePos : Int := (s.dataStartPos : Int) + frame * (s.blockAlignment : Int)
  { s with pos := framePos.toNat }

/-! Helper lemmas. -/

/-- A successful `FormatInfoChunk` construction stores exactly the supplied
essential fields. -/
theorem mkFormatInfoChunk_ok {cc sr bips : Nat} {ed : Option ExtraDataS} {tag : Nat}
    {fmt : FormatInfoChunk} (h : mkFormatInfoChunk cc sr bips ed tag = .ok fmt) :
    fmt = { channelCount := cc, sampleRate := sr, bitsPerSample := bips
          , extraData := ed, formatTag := tag } := by
  unfold mkFormatInfoChunk at h
  split_ifs at h
  exact (Except.ok.injEq _ _).mp h.symm

/-- A `fmt ` parse that passes the sanity checks returns a chunk whose
derived fields equal the stored on-disk values. -/
theorem finishFormatInfoChunk_ok {cc sr bips : Nat} {ed : Option ExtraDataS} {tag : Nat}
    {bps ba : Nat} {fmt : FormatInfoChunk}
    (h : finishFormatInfoChunk cc sr bips ed tag bps ba = .ok fmt) :
    fmt.channelCount = cc ∧ fmt.sampleRate = sr ∧ fmt.bitsPerSample = bips ∧
      fmt.blockAlignment = ba ∧ fmt.bytesPerSecond = bps := by
  unfold finishFormatInfoChunk at h
  split at h
  next e heq => exact absurd h (by simp)
  next fmt' heq =>
    have hf := mkFormatInfoChunk_ok heq
    split_ifs at h with h1 h2
    cases h
    subst hf
    exact ⟨rfl, rfl, rfl, Decidable.not_not.mp h1, Decidable.not_not.mp h2⟩

/-- C3: a `fmt ` chunk parse succeeds only when the stored `blockAlignment`
equals `channelCount * bitsPerSample / 8` and the stored `bytesPerSecond`
equals `sampleRate * blockAlignment`; contrapositively, any mismatch of
either derived field makes the parse fail. -/
theorem fmt_parse_validates_derived_fields
    (size formatTag channelCount sampleRate : Nat)
    (bytesPerSecond blockAlignment bitsPerSample cbSize : Nat)
    (extra : ExtraDataS) (fmt : FormatInfoChunk)
    (h : parseFormatInfoChunk size formatTag channelCount sampleRate
          bytesPerSecond blockAlignment bitsPerSample cbSize extra = .ok fmt) :
    blockAlignment = channelCount * bitsPerSample / 8 ∧
      bytesPerSecond = sampleRate * (channelCount * bitsPerSample / 8) := by
  unfold parseFormatInfoChunk at h
  split_ifs at h <;>
    first
    | exact absurd h (by simp)
    | (obtain ⟨hc, hs, hb, hba, hbps⟩ := finishFormatInfoChunk_ok h
       refine ⟨?_, ?_⟩
       · rw [← hba]
         simp [FormatInfoChunk.blockAlignment, hc, hb]
       · rw [← hbps]
         simp [FormatInfoChunk.bytesPerSecond, FormatInfoChunk.blockAlignment, hc, hs, hb])

/-- C3 witness: a well-formed 16-byte PCM `fmt ` chunk
(1 channel, 48000 Hz, 16 bit, blockAlignment 2, bytesPerSecond 96000)
parses successfully, and its stored derived fields match the formulas. -/
theorem fmt_parse_validates_derived_fields_witness :
    2 = 1 * 16 / 8 ∧ 96000 = 48000 * (1 * 16 / 8) :=
  fmt_parse_validates_derived_fields 16 1 1 48000 96000 2 16 0
    { validBitsPerSample := 0, dwChannelMask := 0, subFormatData1 := 0
    , subFormatData2 := 0, subFormatData3 := 0, subFormatData4 := 0 }
    { channelCount := 1, sampleRate := 48000, bitsPerSample := 16
    , extraData := none, formatTag := 1 }
    (by rfl)

/-- C7: `seek` clamps the requested frame, computed from the
way-dependent start frame plus the offset, to `[0, numberOfFrames]`, and
positions the stream at `dataStartPos + frame * blockAlignment`. -/
theorem seek_clamps_and_positions (s : ReaderSeekState) (offset : Int) (way : SeekDir)
    (_hba : 0 < s.blockAlignment) :
    (((seek s offset way).pos : Int)
        = (s.dataStartPos : Int)
          + max 0 (min (startFrame s way + offset) (numberOfFrames s : Int))
            * (s.blockAlignment : Int))
    ∧ 0 ≤ max 0 (min (startFrame s way + offset) (numberOfFrames s : Int))
    ∧ max 0 (min (startFrame s way + offset) (numberOfFrames s : Int))
        ≤ (numberOfFrames s : Int) := by
  have hn : (0 : Int) ≤ (numberOfFrames s : Int) := Int.ofNat_nonneg _
  unfold seek
  set f0 : Int := startFrame s way + offset with hf0
  refine ⟨?_, le_max_left _ _, ?_⟩
  · have hcl : (if f0 < 0 then 0 else if f0 > (numberOfFrames s : Int) then (numberOfFrames s : Int) else f0)
        = max 0 (min f0 (numberOfFrames s : Int)) := by
      rcases lt_or_le f0 0 with hneg | hpos
      · rw [if_pos hneg]
        rw [max_eq_left]
        exact le_trans (min_le_left _ _) (le_of_lt hneg)
      · rw [if_neg (not_lt.mpr hpos)]
        rcases lt_or_le (numberOfFrames s : Int) f0 with hbig | hsmall
        · rw [if_pos hbig]
          rw [min_eq_right (le_of_lt hbig), max_eq_right hn]
        · rw [if_neg (not_lt.mpr hsmall)]
          rw [min_eq_left hsmall, max_eq_right hpos]
    simp only [hcl]
    apply Int.toNat_of_nonneg
    have h1 : 0 ≤ max 0 (min f0 (numberOfFrames s : Int)) := le_max_left _ _
    have h2 : (0 : Int) ≤ (s.dataStartPos : Int) := Int.ofNat_nonneg _
    have h3 : (0 : Int) ≤ (s.blockAlignment : Int) := Int.ofNat_nonneg _
    exact add_nonneg h2 (mul_nonneg h1 h3)
  · exact max_le hn (min_le_right _ _)

/-- C7 witness: seeking backwards past the start from `Current` clamps to
frame 0, on a reader with 10 frames of 4 bytes starting at byte 100. -/
theorem seek_clamps_and_positions_witness :
    ((seek { dataSize := 40, blockAlignment := 4, dataStartPos := 100, pos := 108 }
        (-7) SeekDir.fromCurrent).pos : Int)
        = (100 : Int)
          + max 0 (min (startFrame { dataSize := 40, blockAlignment := 4, dataStartPos := 100, pos := 108 } SeekDir.fromCurrent + (-7))
              ((numberOfFrames { dataSize := 40, blockAlignment := 4, dataStartPos := 100, pos := 108 } : Nat) : Int))
            * (4 : Int) :=
  (seek_clamps_and_positions
    { dataSize := 40, blockAlignment := 4, dataStartPos := 100, pos := 108 }
    (-7) SeekDir.fromCurrent (by decide)).1

/-- Reading `n` cue point records succeeds exactly when the stream still
holds at least `n` records. -/
theorem readCuePoints_isOk (n : Nat) (rs : List CueRec) :
    (readCuePoints n rs).isOk = true ↔ n ≤ rs.length := by
  induction n generalizing rs with
  | zero => simp [readCuePoints, Except.isOk, Except.toBool]
  | succ n ih =>
      cases rs with
      | nil => simp [readCuePoints, Except.isOk, Except.toBool]
      | cons r rest =>
          simp only [readCuePoints, List.length_cons, Nat.succ_le_succ_iff]
          cases hrec : readCuePoints n rest with
          | ok ps =>
              have := (ih rest).mp (by rw [hrec]; rfl)
              simpa [Except.isOk, Except.toBool] using this
          | error e =>
              have : ¬ n ≤ rest.length := fun hle => by
                have := (ih rest).mpr hle
                rw [hrec] at this
                exact absurd this (by simp [Except.isOk, Except.toBool])
              simpa [Except.isOk, Except.toBool] using this

/-- C8 (amended): the `cue ` chunk parser accepts exactly when the declared
64-bit size is at least 4, equals the 32-bit-truncated value
`(4 + 24 * count) % 2^32` (the C++ right-hand side of the size check is
computed in `uint32_t` arithmetic), and the payload still holds `count`
records.  Exact 64-bit equality with `4 + 24 * count` is the same
condition only while `24 * count + 4` fits in 32 bits. -/
theorem parseCueChunk_accepts_iff (size count : Nat) (records : List CueRec) :
    (parseCueChunk size count records).isOk = true ↔
      (4 ≤ size ∧ size = (4 + 24 * count) % 4294967296 ∧ count ≤ records.length) := by
  unfold parseCueChunk
  split_ifs with h1 h2
  · simp only [Except.isOk, Except.toBool]
    constructor
    · intro h; cases h
    · rintro ⟨h4, -, -⟩; omega
  · simp only [Except.isOk, Except.toBool]
    constructor
    · intro h; cases h
    · rintro ⟨-, hsz, -⟩; exact absurd hsz h2
  · rw [readCuePoints_isOk]
    constructor
    · intro h
      exact ⟨by omega, Decidable.not_not.mp h2, h⟩
    · rintro ⟨-, -, hlen⟩; exact hlen

/-- C8 counterexample: with `count = 178956971` the 32-bit computation
`4 + 24 * count` wraps to 12, so a chunk whose 64-bit size really is
`4 + 24 * count = 4294967308` is rejected by the parser even though the
stream holds exactly `count` records — refuting "accepts exactly when the
declared 64-bit chunk size equals 4 + 24 * count". -/
theorem parseCueChunk_wrap_counterexample :
    4294967308 = 4 + 24 * 178956971 ∧
    (List.replicate 178956971
        ({ id := 0, position := 0, dataChunkId := 0, chunkStart := 0
         , blockStart := 0, sampleOffset := 0 } : CueRec)).length = 178956971 ∧
    parseCueChunk 4294967308 178956971
        (List.replicate 178956971
          { id := 0, position := 0, dataChunkId := 0, chunkStart := 0
          , blockStart := 0, sampleOffset := 0 })
      = .error .sizeMismatch := by
  refine ⟨by norm_num, List.length_replicate _ _, ?_⟩
  unfold parseCueChunk
  norm_num

/-- A chunk collection without any `'cue '` id yields no cue chunk. -/
theorem getCueChunk_eq_none (cs : List RChunk)
    (h : ∀ c ∈ cs, c.id ≠ fourCC "cue ") : getCueChunk cs = none := by
  revert h
  induction cs with
  | nil => intro _; rfl
  | cons c rest ih =>
      intro h
      unfold getCueChunk
      rw [if_neg (h c (List.mem_cons_self c rest))]
      exact ih (fun x hx => h x (List.mem_cons_of_mem c hx))

/-- C10: without a `cue ` chunk, `getMarkers` returns the empty list and
`findMarkerById` finds nothing for any id, even when `LIST/adtl` chunks
with `labl` sub-chunks are present (both functions return before ever
looking at labels, so unmatched labels are silently ignored). -/
theorem no_cue_chunk_no_markers (cs : List RChunk)
    (h : ∀ c ∈ cs, c.id ≠ fourCC "cue ") :
    getMarkers cs = [] ∧ ∀ i, findMarkerById cs i = none := by
  have hnone : getCueChunk cs = none := getCueChunk_eq_none cs h
  constructor
  · unfold getMarkers
    rw [hnone]
  · intro i
    unfold findMarkerById
    rw [hnone]

/-- C10 witness: a chunk list holding only a `LIST/adtl` chunk with one
`labl` sub-chunk yields no markers and no find-by-id hit. -/
theorem no_cue_chunk_no_markers_witness :
    getMarkers [RChunk.list (fourCC "adtl") [SubChunk.labl 1 "Marker"]] = [] ∧
    findMarkerById [RChunk.list (fourCC "adtl") [SubChunk.labl 1 "Marker"]] 1 = none :=
  ⟨(no_cue_chunk_no_markers _ (by decide)).1,
   (no_cue_chunk_no_markers _ (by decide)).2 1⟩

/-- Adding a cue point whose id is already present fails with the
duplicate-id error. -/
theorem addCuePointCue_dup {ps : List CuePoint} {cue : CuePoint}
    (h : cue.id ∈ ps.map CuePoint.id) :
    addCuePointCue ps cue = .error .duplicateCueId := by
  unfold addCuePointCue
  cases hf : ps.find? (fun cp => cp.id == cue.id) with
  | some _ => rfl
  | none =>
      obtain ⟨cp, hcp, hid⟩ := List.mem_map.mp h
      exact absurd (List.find?_eq_none.mp hf cp hcp) (by simp [hid])

/-- The only error `CueChunk::addCuePoint` can raise is the duplicate-id
error. -/
theorem addCuePointCue_error_eq {ps : List CuePoint} {cue : CuePoint} {e : BwError}
    (h : addCuePointCue ps cue = .error e) : e = .duplicateCueId := by
  unfold addCuePointCue at h
  cases hf : ps.find? (fun cp => cp.id == cue.id) with
  | some _ => rw [hf] at h; cases h; rfl
  | none => rw [hf] at h; cases h

/-- A successful `addCuePoint` is exactly a fresh-id insertion followed by
the position sort. -/
theorem addCuePointCue_ok {ps : List CuePoint} {cue : CuePoint} {ps' : List CuePoint}
    (h : addCuePointCue ps cue = .ok ps') :
    ps.find? (fun cp => cp.id == cue.id) = none ∧ ps' = sortByPosition (ps ++ [cue]) := by
  unfold addCuePointCue at h
  cases hf : ps.find? (fun cp => cp.id == cue.id) with
  | some _ => rw [hf] at h; cases h
  | none => rw [hf] at h; cases h; exact ⟨rfl, rfl⟩

/-- Successful insertion preserves every id already present. -/
theorem addCuePointCue_ids_subset {ps : List CuePoint} {cue : CuePoint} {ps' : List CuePoint}
    (h : addCuePointCue ps cue = .ok ps') :
    ∀ i ∈ ps.map CuePoint.id, i ∈ ps'.map CuePoint.id := by
  obtain ⟨-, hps'⟩ := addCuePointCue_ok h
  intro i hi
  have hperm : (ps'.map CuePoint.id).Perm ((ps ++ [cue]).map CuePoint.id) := by
    rw [hps']
    exact (List.perm_insertionSort posLE (ps ++ [cue])).map CuePoint.id
  rw [hperm.mem_iff]
  simp only [List.map_append, List.mem_append]
  exact Or.inl hi

/-- If some marker of the batch carries an id already present, the
`addMarkers` loop fails with the duplicate-id error. -/
theorem addMarkersGo_dup {markers : List CuePoint} :
    ∀ ps : List CuePoint, (∃ m ∈ markers, m.id ∈ ps.map CuePoint.id) →
      addMarkersGo ps markers = .error .duplicateCueId := by
  induction markers with
  | nil => intro ps h; obtain ⟨m, hm, -⟩ := h; cases hm
  | cons m ms ih =>
      intro ps h
      obtain ⟨m0, hm0, hid⟩ := h
      unfold addMarkersGo
      cases hadd : addCuePointCue ps m with
      | error e =>
          have he : e = .duplicateCueId := addCuePointCue_error_eq hadd
          subst he
          rfl
      | ok ps' =>
          rcases List.mem_cons.mp hm0 with rfl | hm0tail
          · obtain ⟨hfind, -⟩ := addCuePointCue_ok hadd
            obtain ⟨cp, hcp, hcpid⟩ := List.mem_map.mp hid
            exact absurd (List.find?_eq_none.mp hfind cp hcp) (by simp [hcpid])
          · exact ih ps' ⟨m0, hm0tail, addCuePointCue_ids_subset hadd _ hid⟩

/-- C4: overwriting any reserved chunk with content larger than the
recorded reserved size is an error; in particular, when the cue chunk was
reserved for `maxMarkers` cue points and more than `maxMarkers` points
were added by close time, `finalizeCueChunk` (and hence `close`) fails. -/
theorem overwrite_capacity_exceeded (s : WriterState) (ps : List CuePoint)
    (hdr : ChunkHeader) (maxMarkers : Nat)
    (hcue : s.cueChunk = some ps)
    (hfind : s.chunkHeaders.find? (fun x => x.id == fourCC "cue ") = some hdr)
    (hreserved : hdr.size = 4 + 24 * maxMarkers)
    (hcount : maxMarkers < ps.length) :
    finalizeCueChunk s = .error .capacityExceeded ∧
    (∀ (headers : List ChunkHeader) (id newSize : Nat) (h2 : ChunkHeader),
        headers.find? (fun x => x.id == id) = some h2 → h2.size < newSize →
        overwriteChunkCheck headers id newSize = .error .capacityExceeded) := by
  have hgen : ∀ (headers : List ChunkHeader) (id newSize : Nat) (h2 : ChunkHeader),
      headers.find? (fun x => x.id == id) = some h2 → h2.size < newSize →
      overwriteChunkCheck headers id newSize = .error .capacityExceeded := by
    intro headers id newSize h2 hf hlt
    unfold overwriteChunkCheck findChunkHeader
    rw [hf]
    simp only []
    rw [if_pos hlt]
  refine ⟨?_, hgen⟩
  unfold finalizeCueChunk
  rw [hcue]
  simp only []
  have hne : ps.isEmpty = false := by
    cases ps with
    | nil => simp at hcount
    | cons a l => rfl
  rw [hne]
  simp only [Bool.false_eq_true, if_false]
  apply hgen _ _ _ _ hfind
  rw [hreserved]
  unfold cueChunkSize
  omega

/-- C4 witness: a writer that reserved room for 1 marker but holds 2 cue
points fails to finalize its cue chunk. -/
theorem overwrite_capacity_exceeded_witness :
    finalizeCueChunk
      { chunkHeaders := [{ id := fourCC "cue ", size := 28, position := 64 }]
      , fileEndPos := 200, dataSize := 16, useRf64Id := false
      , cueChunk := some
          [ { id := 1, position := 0, dataChunkId := 0, chunkStart := 0
            , blockStart := 0, sampleOffset := 0, label := "" }
          , { id := 2, position := 4, dataChunkId := 0, chunkStart := 0
            , blockStart := 0, sampleOffset := 4, label := "" } ] }
      = .error .capacityExceeded :=
  (overwrite_capacity_exceeded
    { chunkHeaders := [{ id := fourCC "cue ", size := 28, position := 64 }]
    , fileEndPos := 200, dataSize := 16, useRf64Id := false
    , cueChunk := some
        [ { id := 1, position := 0, dataChunkId := 0, chunkStart := 0
          , blockStart := 0, sampleOffset := 0, label := "" }
        , { id := 2, position := 4, dataChunkId := 0, chunkStart := 0
          , blockStart := 0, sampleOffset := 4, label := "" } ] }
    [ { id := 1, position := 0, dataChunkId := 0, chunkStart := 0
      , blockStart := 0, sampleOffset := 0, label := "" }
    , { id := 2, position := 4, dataChunkId := 0, chunkStart := 0
      , blockStart := 0, sampleOffset := 4, label := "" } ]
    { id := fourCC "cue ", size := 28, position := 64 } 1
    rfl (by decide) rfl (by decide)).1

/-- C5: every `addMarker` variant fails on a duplicate id, and every
variant fails on a writer opened with `maxMarkers == 0` (no reserved cue
chunk). -/
theorem addMarker_dup_or_unreserved (s s0 : WriterState) (ps : List CuePoint)
    (cue : CuePoint) (id position : Nat) (label : String) (markers : List CuePoint) :
    (s.cueChunk = some ps → cue.id ∈ ps.map CuePoint.id →
        writerAddMarkerCue s cue = .error .duplicateCueId)
  ∧ (s.cueChunk = some ps → id ∈ ps.map CuePoint.id →
        writerAddMarker s id position label = .error .duplicateCueId)
  ∧ (s.cueChunk = some ps → (∃ m ∈ markers, m.id ∈ ps.map CuePoint.id) →
        writerAddMarkers s markers = .error .duplicateCueId)
  ∧ (s0.cueChunk = none →
        writerAddMarker s0 id position label = .error .noCueChunkReserved
      ∧ writerAddMarkerCue s0 cue = .error .noCueChunkReserved
      ∧ writerAddMarkers s0 markers = .error .noCueChunkReserved) := by
  refine ⟨?_, ?_, ?_, ?_⟩
  · intro hc hdup
    unfold writerAddMarkerCue
    rw [hc]
    simp only []
    rw [addCuePointCue_dup hdup]
  · intro hc hdup
    unfold writerAddMarker
    rw [hc]
    simp only []
    have : addCuePointNew ps id position label = .error .duplicateCueId := by
      unfold addCuePointNew
      cases hf : ps.find? (fun cp => cp.id == id) with
      | some _ => rfl
      | none =>
          obtain ⟨cp, hcp, hid⟩ := List.mem_map.mp hdup
          exact absurd (List.find?_eq_none.mp hf cp hcp) (by simp [hid])
    rw [this]
  · intro hc hdup
    unfold writerAddMarkers
    rw [hc]
    simp only []
    rw [addMarkersGo_dup ps hdup]
  · intro hc
    refine ⟨?_, ?_, ?_⟩
    · unfold writerAddMarker; rw [hc]
    · unfold writerAddMarkerCue; rw [hc]
    · unfold writerAddMarkers; rw [hc]

/-- C5 witness: on a writer whose cue chunk holds the single id 7, adding
id 7 again fails through each variant, and on a writer opened with
`maxMarkers == 0` the position-variant fails as well. -/
theorem addMarker_dup_or_unreserved_witness :
    writerAddMarkerCue
      { chunkHeaders := [], fileEndPos := 100, dataSize := 0, useRf64Id := false
      , cueChunk := some
          [ { id := 7, position := 3, dataChunkId := 0, chunkStart := 0
            , blockStart := 0, sampleOffset := 3, label := "" } ] }
      { id := 7, position := 9, dataChunkId := 0, chunkStart := 0
      , blockStart := 0, sampleOffset := 9, label := "" }
      = .error .duplicateCueId
  ∧ writerAddMarker
      { chunkHeaders := [], fileEndPos := 100, dataSize := 0, useRf64Id := false
      , cueChunk := none } 7 9 ""
      = .error .noCueChunkReserved := by
  have h := addMarker_dup_or_unreserved
    { chunkHeaders := [], fileEndPos := 100, dataSize := 0, useRf64Id := false
    , cueChunk := some
        [ { id := 7, position := 3, dataChunkId := 0, chunkStart := 0
          , blockStart := 0, sampleOffset := 3, label := "" } ] }
    { chunkHeaders := [], fileEndPos := 100, dataSize := 0, useRf64Id := false
    , cueChunk := none }
    [ { id := 7, position := 3, dataChunkId := 0, chunkStart := 0
      , blockStart := 0, sampleOffset := 3, label := "" } ]
    { id := 7, position := 9, dataChunkId := 0, chunkStart := 0
    , blockStart := 0, sampleOffset := 9, label := "" }
    7 9 "" []
  exact ⟨h.1 rfl (by decide), (h.2.2.2 rfl).1⟩

/-- C6: after every successful insertion (either `addCuePoint` overload)
into a cue point list with pairwise-distinct ids, the list is sorted in
non-decreasing position order and its ids are still pairwise distinct. -/
theorem addCuePoint_sorted_nodup (ps : List CuePoint) (cue : CuePoint)
    (id position : Nat) (label : String)
    (hnd : (ps.map CuePoint.id).Nodup) :
    (∀ ps', addCuePointCue ps cue = .ok ps' →
        sortedByPosition ps' ∧ (ps'.map CuePoint.id).Nodup)
  ∧ (∀ ps', addCuePointNew ps id position label = .ok ps' →
        sortedByPosition ps' ∧ (ps'.map CuePoint.id).Nodup) := by
  have key : ∀ c : CuePoint, ps.find? (fun cp => cp.id == c.id) = none →
      sortedByPosition (sortByPosition (ps ++ [c])) ∧
      ((sortByPosition (ps ++ [c])).map CuePoint.id).Nodup := by
    intro c hfresh
    constructor
    · exact List.sorted_insertionSort posLE (ps ++ [c])
    · have hmem : c.id ∉ ps.map CuePoint.id := by
        intro hmem
        obtain ⟨cp, hcp, hid⟩ := List.mem_map.mp hmem
        exact absurd (List.find?_eq_none.mp hfresh cp hcp) (by simp [hid])
      have hnd2 : ((ps ++ [c]).map CuePoint.id).Nodup := by
        simp only [List.map_append, List.map_cons, List.map_nil]
        rw [List.nodup_append]
        refine ⟨hnd, List.nodup_singleton _, ?_⟩
        intro x hx hxc
        rw [List.mem_singleton] at hxc
        exact hmem (hxc ▸ hx)
      have hperm : ((ps ++ [c]).map CuePoint.id).Perm
          ((sortByPosition (ps ++ [c])).map CuePoint.id) :=
        ((List.perm_insertionSort posLE (ps ++ [c])).map CuePoint.id).symm
      exact hperm.nodup hnd2
  constructor
  · intro ps' h
    obtain ⟨hfresh, hps'⟩ := addCuePointCue_ok h
    rw [hps']
    exact key cue hfresh
  · intro ps' h
    unfold addCuePointNew at h
    cases hf : ps.find? (fun cp => cp.id == id) with
    | some _ => rw [hf] at h; cases h
    | none =>
        rw [hf] at h
        cases h
        exact key _ hf

/-- C6 witness: inserting id 2 at position 1 into a singleton list holding
id 1 at position 5 succeeds, and the result is position-sorted with
distinct ids. -/
theorem addCuePoint_sorted_nodup_witness :
    sortedByPosition
      [ { id := 2, position := 1, dataChunkId := fourCC "data", chunkStart := 0
        , blockStart := 0, sampleOffset := 1, label := "" }
      , { id := 1, position := 5, dataChunkId := 0, chunkStart := 0
        , blockStart := 0, sampleOffset := 5, label := "" } ]
  ∧ ([ ( { id := 2, position := 1, dataChunkId := fourCC "data", chunkStart := 0
         , blockStart := 0, sampleOffset := 1, label := "" } : CuePoint)
     , { id := 1, position := 5, dataChunkId := 0, chunkStart := 0
       , blockStart := 0, sampleOffset := 5, label := "" } ].map CuePoint.id).Nodup :=
  ((addCuePoint_sorted_nodup
      [ { id := 1, position := 5, dataChunkId := 0, chunkStart := 0
        , blockStart := 0, sampleOffset := 5, label := "" } ]
      { id := 9, position := 9, dataChunkId := 0, chunkStart := 0
      , blockStart := 0, sampleOffset := 9, label := "" }
      2 1 "" (by decide)).2
    _ (by rfl))

/-- C9: `addCuePoint` with a duplicate id fails with the cue point list
left exactly unchanged — the exception is thrown before any mutation — so
the serialized cue chunk is the same as if the call had never happened. -/
theorem addCuePoint_dup_state_unchanged (ps : List CuePoint) (cue : CuePoint)
    (hdup : cue.id ∈ ps.map CuePoint.id) :
    (addCuePointSt ps cue).1 = .error .duplicateCueId
  ∧ (addCuePointSt ps cue).2 = ps
  ∧ writeCueChunk (addCuePointSt ps cue).2 = writeCueChunk ps := by
  have h := addCuePointCue_dup hdup
  unfold addCuePointSt
  rw [h]
  exact ⟨rfl, rfl, rfl⟩

/-- C9 witness: the duplicate insertion of id 7 leaves the singleton list
and its serialization untouched. -/
theorem addCuePoint_dup_state_unchanged_witness :
    (addCuePointSt
      [ { id := 7, position := 3, dataChunkId := 0, chunkStart := 0
        , blockStart := 0, sampleOffset := 3, label := "" } ]
      { id := 7, position := 1, dataChunkId := 0, chunkStart := 0
      , blockStart := 0, sampleOffset := 1, label := "" }).2
    = [ { id := 7, position := 3, dataChunkId := 0, chunkStart := 0
        , blockStart := 0, sampleOffset := 3, label := "" } ] :=
  (addCuePoint_dup_state_unchanged
    [ { id := 7, position := 3, dataChunkId := 0, chunkStart := 0
      , blockStart := 0, sampleOffset := 3, label := "" } ]
    { id := 7, position := 1, dataChunkId := 0, chunkStart := 0
    , blockStart := 0, sampleOffset := 1, label := "" }
    (by decide)).2.1

/-- The oversize predicate tested by `isBw64File`, in propositional form:
the RIFF group size (file size minus the 8-byte outer header) exceeds
`UINT32_MAX`, or some recorded chunk size does. -/
def oversize (s : WriterState) : Prop :=
  U32MAX < riffChunkSize s ∨ ∃ h ∈ s.chunkHeaders, U32MAX < h.size

/-- The `isBw64File` member decides `oversize`. -/
theorem isBw64File_iff (s : WriterState) : isBw64File s = true ↔ oversize s := by
  unfold isBw64File oversize
  rw [Bool.or_eq_true, decide_eq_true_iff, List.any_eq_true]
  constructor
  · rintro (h | ⟨x, hx, hd⟩)
    · exact Or.inl h
    · exact Or.inr ⟨x, hx, by simpa using hd⟩
  · rintro (h | ⟨x, hx, hd⟩)
    · exact Or.inl h
    · exact Or.inr ⟨x, hx, by simpa using hd⟩

/-- Inserting a fresh id into a ds64 table appends it. -/
theorem setChunkSize_fresh (t : List (Nat × Nat)) (id sz : Nat)
    (h : ∀ e ∈ t, e.1 ≠ id) : setChunkSize t id sz = t ++ [(id, sz)] := by
  unfold setChunkSize
  have hany : t.any (fun e => e.1 == id) = false := by
    rw [← Bool.not_eq_true, List.any_eq_true]
    rintro ⟨e, he, heq⟩
    exact h e he (by simpa using heq)
  rw [hany]
  simp only [Bool.false_eq_true, if_false]

/-- With pairwise-distinct header ids, the ds64 table assembled by
`overwriteJunkWithDs64Chunk` is exactly the oversized headers, in order,
as id-size pairs. -/
theorem mkDs64_table_aux (headers : List ChunkHeader) (t : List (Nat × Nat))
    (hnd : (headers.map ChunkHeader.id).Nodup)
    (hfresh : ∀ e ∈ t, e.1 ∉ headers.map ChunkHeader.id) :
    headers.foldl (fun t h => if h.size > U32MAX then setChunkSize t h.id h.size else t) t
      = t ++ (headers.filter (fun h => decide (U32MAX < h.size))).map (fun h => (h.id, h.size)) := by
  induction headers generalizing t with
  | nil => simp
  | cons h rest ih =>
      simp only [List.map_cons, List.nodup_cons] at hnd
      obtain ⟨hhid, hndrest⟩ := hnd
      simp only [List.foldl_cons]
      by_cases hsz : U32MAX < h.size
      · rw [if_pos hsz]
        have hf : ∀ e ∈ t, e.1 ≠ h.id := by
          intro e he
          have := hfresh e he
          simp only [List.map_cons, List.mem_cons] at this
          exact fun hc => this (Or.inl hc)
        rw [setChunkSize_fresh t h.id h.size hf]
        rw [ih (t ++ [(h.id, h.size)]) hndrest ?_]
        · rw [List.filter_cons_of_pos (by simpa using hsz), List.map_cons]
          simp [List.append_assoc]
        · intro e he
          rcases List.mem_append.mp he with het | hes
          · have := hfresh e het
            simp only [List.map_cons, List.mem_cons] at this
            exact fun hc => this (Or.inr hc)
          · rw [List.mem_singleton] at hes
            subst hes
            exact hhid
      · rw [if_neg hsz]
        rw [ih t hndrest ?_]
        · rw [List.filter_cons_of_neg (by simpa using hsz)]
        · intro e he
          have := hfresh e he
          simp only [List.map_cons, List.mem_cons] at this
          exact fun hc => this (Or.inr hc)

/-- C2 (amended): at close, when the RIFF group size (total file size
minus the 8-byte outer header) or any recorded chunk size exceeds
`UINT32_MAX`, `finalizeRiffChunk` rewrites the group id as `BW64` (`RF64`
when the caller opted in through `useRf64Id`), pins the group size at
`UINT32_MAX`, and overwrites the `JUNK` placeholder with a ds64 chunk
recording `bw64Size = riffChunkSize`, `dataSize`, and one table entry per
oversized chunk (provided the assembled ds64 fits the placeholder);
otherwise it rewrites the group id as `RIFF` with the actual 32-bit group
size. -/
theorem finalizeRiffChunk_correct (s : WriterState)
    (hnd : (s.chunkHeaders.map ChunkHeader.id).Nodup) :
    (¬ oversize s →
        finalizeRiffChunk s = .ok ({ groupId := fourCC "RIFF"
                                   , groupSize := riffChunkSize s }, none))
  ∧ (oversize s →
      ∀ hj : ChunkHeader,
        s.chunkHeaders.find? (fun h => h.id == fourCC "JUNK") = some hj →
        ds64Size (mkDs64 s) ≤ hj.size →
        finalizeRiffChunk s = .ok
          ({ groupId := fourCC (if s.useRf64Id then "RF64" else "BW64")
           , groupSize := U32MAX },
           some { bw64Size := riffChunkSize s
                , dataSize := s.dataSize
                , table := (s.chunkHeaders.filter (fun h => decide (U32MAX < h.size))).map
                    (fun h => (h.id, h.size)) })) := by
  constructor
  · intro hno
    have hb : isBw64File s = false := by
      rw [← Bool.not_eq_true, isBw64File_iff]
      exact hno
    unfold finalizeRiffChunk
    rw [hb]
    simp only [Bool.false_eq_true, if_false]
    have hlt : riffChunkSize s < 4294967296 := by
      unfold oversize at hno
      push_neg at hno
      have := hno.1
      unfold U32MAX at this
      omega
    rw [Nat.mod_eq_of_lt hlt]
  · intro hov hj hjfind hjfit
    have hb : isBw64File s = true := (isBw64File_iff s).mpr hov
    unfold finalizeRiffChunk
    rw [hb]
    simp only [if_true]
    have hcheck : overwriteChunkCheck s.chunkHeaders (fourCC "JUNK") (ds64Size (mkDs64 s))
        = .ok () := by
      unfold overwriteChunkCheck findChunkHeader
      rw [hjfind]
      simp only []
      rw [if_neg (not_lt.mpr hjfit)]
    rw [hcheck]
    have htable : s.chunkHeaders.foldl
          (fun t h => if h.size > U32MAX then setChunkSize t h.id h.size else t) []
        = (s.chunkHeaders.filter (fun h => decide (U32MAX < h.size))).map
            (fun h => (h.id, h.size)) := by
      simpa using mkDs64_table_aux s.chunkHeaders [] hnd (by simp)
    unfold mkDs64
    rw [htable]

/-- C2 witness: a writer whose data chunk grew past 4 GiB (header size
`2^32`) is finalized as `BW64` with group size `UINT32_MAX` and a ds64
chunk holding one table entry for the oversized data chunk. -/
theorem finalizeRiffChunk_correct_witness :
    finalizeRiffChunk
      { chunkHeaders := [ { id := fourCC "JUNK", size := 40, position := 12 }
                        , { id := fourCC "data", size := 4294967296, position := 60 } ]
      , fileEndPos := 4294967364, dataSize := 4294967296, useRf64Id := false
      , cueChunk := none }
      = .ok
        ({ groupId := fourCC (if false then "RF64" else "BW64"), groupSize := U32MAX },
         some { bw64Size := 4294967356, dataSize := 4294967296
              , table := [(fourCC "data", 4294967296)] }) := by
  have h := (finalizeRiffChunk_correct
    { chunkHeaders := [ { id := fourCC "JUNK", size := 40, position := 12 }
                      , { id := fourCC "data", size := 4294967296, position := 60 } ]
    , fileEndPos := 4294967364, dataSize := 4294967296, useRf64Id := false
    , cueChunk := none }
    (by decide)).2
    (Or.inr ⟨{ id := fourCC "data", size := 4294967296, position := 60 },
      by decide, by decide⟩)
    { id := fourCC "JUNK", size := 40, position := 12 }
    (by decide) (by decide)
  rw [h]
  rfl

/-- C2 counterexample: a file of total size exactly `2^32` bytes — which
does exceed `2^32 - 1` — with no oversized chunk is still finalized as
`RIFF`, because `isBw64File` compares `riffChunkSize() = fileSize - 8`
(not the total file size) against `UINT32_MAX`.  This refutes the claim's
"if the file's total size ... exceeds 2^32-1, the group ID is rewritten
as BW64 (or RF64 ...)". -/
theorem finalizeRiffChunk_total_size_counterexample :
    4294967295 < (4294967296 : Nat)
  ∧ finalizeRiffChunk
      { chunkHeaders := [ { id := fourCC "JUNK", size := 40, position := 12 }
                        , { id := fourCC "data", size := 4294967228, position := 60 } ]
      , fileEndPos := 4294967296, dataSize := 4294967228, useRf64Id := false
      , cueChunk := none }
      = .ok ({ groupId := fourCC "RIFF", groupSize := 4294967288 }, none)
  ∧ fourCC "RIFF" ≠ fourCC "BW64"
  ∧ fourCC "RIFF" ≠ fourCC "RF64" := by
  refine ⟨by norm_num, ?_, by decide, by decide⟩
  rfl

/-- Updating the first matching marker's label never changes the id
sequence. -/
theorem setFirstLabel_map_id (ms : List CuePoint) (cid : Nat) (lab : String) :
    (setFirstLabel ms cid lab).map CuePoint.id = ms.map CuePoint.id := by
  induction ms with
  | nil => rfl
  | cons m rest ih =>
      unfold setFirstLabel
      by_cases h : m.id = cid
      · rw [if_pos h]; rfl
      · rw [if_neg h]
        simp only [List.map_cons, ih]

/-- The label of `applyLabelMap` never changes the id. -/
theorem applyLabelMap_id (es : List (Nat × String)) (p : CuePoint) :
    (applyLabelMap es p).id = p.id := by
  unfold applyLabelMap
  cases lookupLast es p.id <;> rfl

/-- On a list with pairwise-distinct ids, updating the first matching
marker is the same as updating every matching marker (there is at most
one). -/
theorem setFirstLabel_eq_map (ms : List CuePoint) (cid : Nat) (lab : String)
    (hnd : (ms.map CuePoint.id).Nodup) :
    setFirstLabel ms cid lab
      = ms.map (fun m => if m.id = cid then { m with label := lab } else m) := by
  induction ms with
  | nil => rfl
  | cons m rest ih =>
      simp only [List.map_cons, List.nodup_cons] at hnd
      obtain ⟨hm, hndrest⟩ := hnd
      unfold setFirstLabel
      by_cases h : m.id = cid
      · rw [if_pos h]
        simp only [List.map_cons, if_pos h, List.cons.injEq, true_and]
        have : ∀ x ∈ rest, (if x.id = cid then { x with label := lab } else x) = x := by
          intro x hx
          rw [if_neg]
          intro hxc
          have hmem : x.id ∈ List.map CuePoint.id rest := List.mem_map.mpr ⟨x, hx, rfl⟩
          rw [hxc, ← h] at hmem
          exact hm hmem
        rw [List.map_congr_left this]
        simp
      · rw [if_neg h]
        simp only [List.map_cons, if_neg h, List.cons.injEq, true_and]
        exact ih hndrest

/-- Folding the label entries over a distinct-id marker list gives each
marker the label of the last entry naming its id (the `std::map`
semantics of `lookupLast`). -/
theorem foldl_setFirstLabel (L : List (Nat × String)) (ms : List CuePoint)
    (hnd : (ms.map CuePoint.id).Nodup) :
    L.foldl (fun acc e => setFirstLabel acc e.1 e.2) ms
      = ms.map (applyLabelMap L) := by
  induction L generalizing ms with
  | nil =>
      simp only [List.foldl_nil]
      have h0 : ∀ p ∈ ms, applyLabelMap [] p = p := fun p _ => rfl
      rw [List.map_congr_left h0, List.map_id']
  | cons e L' ih =>
      simp only [List.foldl_cons]
      rw [setFirstLabel_eq_map ms e.1 e.2 hnd]
      have hids : ((ms.map (fun m => if m.id = e.1 then { m with label := e.2 } else m)).map
          CuePoint.id) = ms.map CuePoint.id := by
        rw [List.map_map]
        apply List.map_congr_left
        intro x _
        by_cases h : x.id = e.1 <;> simp [h]
      rw [ih _ (by rw [hids]; exact hnd)]
      rw [List.map_map]
      apply List.map_congr_left
      intro p _
      show applyLabelMap L' (if p.id = e.1 then { p with label := e.2 } else p)
            = applyLabelMap (e :: L') p
      have hcons : lookupLast (e :: L') p.id
          = (match lookupLast L' p.id with
             | some v => some v
             | none => if e.1 = p.id then some e.2 else none) := rfl
      by_cases h : p.id = e.1
      · rw [if_pos h]
        cases hL : lookupLast L' p.id with
        | some lab =>
            have h2 : lookupLast (e :: L') p.id = some lab := by rw [hcons, hL]
            simp [applyLabelMap, hL, h2]
        | none =>
            have h2 : lookupLast (e :: L') p.id = some e.2 := by
              rw [hcons, hL, if_pos h.symm]
            simp [applyLabelMap, hL, h2]
      · rw [if_neg h]
        cases hL : lookupLast L' p.id with
        | some lab =>
            have h2 : lookupLast (e :: L') p.id = some lab := by rw [hcons, hL]
            simp [applyLabelMap, hL, h2]
        | none =>
            have h2 : lookupLast (e :: L') p.id = none := by
              rw [hcons, hL, if_neg (fun hc => h hc.symm)]
            simp [applyLabelMap, hL, h2]

/-- Sub-chunk processing in `getMarkers` agrees with folding the chunk's
extracted label entries. -/
theorem applyChunkLabels_eq_foldl (c : RChunk) (ms : List CuePoint) :
    applyChunkLabels ms c
      = (adtlEntries c).foldl (fun acc e => setFirstLabel acc e.1 e.2) ms := by
  cases c with
  | cue ps => rfl
  | other i => rfl
  | list lt subs =>
      simp only [applyChunkLabels, adtlEntries]
      by_cases h : lt = fourCC "adtl"
      · rw [if_pos h, if_pos h]
        clear h
        induction subs generalizing ms with
        | nil => rfl
        | cons sc rest ih =>
            cases sc with
            | labl cid lab =>
                simp only [List.foldl_cons, List.filterMap_cons]
                exact ih (setFirstLabel ms cid lab)
            | unknown i =>
                simp only [List.foldl_cons, List.filterMap_cons]
                exact ih ms
      · rw [if_neg h, if_neg h]
        rfl

/-- The chunk walk of `getMarkers` agrees with folding all collected
label entries in order. -/
theorem foldl_applyChunkLabels (cs : List RChunk) (ms : List CuePoint) :
    cs.foldl applyChunkLabels ms
      = (collectAdtlLabels cs).foldl (fun acc e => setFirstLabel acc e.1 e.2) ms := by
  induction cs generalizing ms with
  | nil => rfl
  | cons c rest ih =>
      simp only [List.foldl_cons]
      rw [ih (applyChunkLabels ms c)]
      rw [applyChunkLabels_eq_foldl c ms]
      unfold collectAdtlLabels
      rw [List.flatMap_cons, List.foldl_append]

/-- Replacing the cue chunk's points does not disturb the label entries
collected from `LIST/adtl` chunks. -/
theorem collectAdtlLabels_setFirstCue (cs : List RChunk) (qs : List CuePoint) :
    collectAdtlLabels (setFirstCue cs qs) = collectAdtlLabels cs := by
  induction cs with
  | nil => rfl
  | cons c rest ih =>
      cases c with
      | cue ps0 =>
          unfold setFirstCue
          simp only [RChunk.id, if_true]
          unfold collectAdtlLabels
          rw [List.flatMap_cons, List.flatMap_cons]
          rfl
      | list lt subs =>
          unfold setFirstCue
          simp only [RChunk.id]
          rw [if_neg (by decide : ¬ fourCC "LIST" = fourCC "cue ")]
          unfold collectAdtlLabels at ih ⊢
          rw [List.flatMap_cons, List.flatMap_cons, ih]
      | other i =>
          unfold setFirstCue
          simp only [RChunk.id]
          by_cases h : i = fourCC "cue "
          · rw [if_pos h]
          · rw [if_neg h]
            unfold collectAdtlLabels at ih ⊢
            rw [List.flatMap_cons, List.flatMap_cons, ih]

/-- After replacing the points of the (found) cue chunk, the cue chunk
lookup returns the new points. -/
theorem getCueChunk_setFirstCue {cs : List RChunk} {ps : List CuePoint}
    (qs : List CuePoint) (h : getCueChunk cs = some ps) :
    getCueChunk (setFirstCue cs qs) = some qs := by
  induction cs with
  | nil => exact Option.noConfusion h
  | cons c rest ih =>
      cases c with
      | cue ps0 =>
          unfold setFirstCue
          simp only [RChunk.id, if_true]
          unfold getCueChunk
          simp only [RChunk.id, if_true]
      | list lt subs =>
          unfold getCueChunk at h
          simp only [RChunk.id] at h
          rw [if_neg (by decide : ¬ fourCC "LIST" = fourCC "cue ")] at h
          unfold setFirstCue
          simp only [RChunk.id]
          rw [if_neg (by decide : ¬ fourCC "LIST" = fourCC "cue ")]
          unfold getCueChunk
          simp only [RChunk.id]
          rw [if_neg (by decide : ¬ fourCC "LIST" = fourCC "cue ")]
          exact ih h
      | other i =>
          unfold getCueChunk at h
          simp only [RChunk.id] at h
          by_cases hc : i = fourCC "cue "
          · rw [if_pos hc] at h
            exact Option.noConfusion h
          · rw [if_neg hc] at h
            unfold setFirstCue
            simp only [RChunk.id]
            rw [if_neg hc]
            unfold getCueChunk
            simp only [RChunk.id]
            rw [if_neg hc]
            exact ih h

/-- The id sequence survives `assocPoints`. -/
theorem assocPoints_map_id (cs : List RChunk) (ps : List CuePoint) :
    (assocPoints cs ps).map CuePoint.id = ps.map CuePoint.id := by
  unfold assocPoints
  rw [List.map_map]
  apply List.map_congr_left
  intro p _
  exact applyLabelMap_id _ p

/-- Applying the label map twice is the same as applying it once. -/
theorem applyLabelMap_idem (es : List (Nat × String)) (p : CuePoint) :
    applyLabelMap es (applyLabelMap es p) = applyLabelMap es p := by
  unfold applyLabelMap
  cases hL : lookupLast es p.id with
  | some lab =>
      have hid : ({ p with label := lab } : CuePoint).id = p.id := rfl
      rw [hid, hL]
  | none => rw [hL]

/-- C1 (amended): for a file whose cue chunk's points carry
pairwise-distinct ids, `getMarkers` returns exactly the cue points parsed
from the `cue ` chunk, in their stored (file) order, each annotated with
the label of the last `labl` sub-chunk (across all `LIST/adtl` chunks)
whose `cuePointId` equals its id, and left with its parsed (empty) label
when no such `labl` exists.  The list is not re-sorted by position. -/
theorem getMarkers_join (cs : List RChunk) (ps : List CuePoint)
    (hcue : getCueChunk cs = some ps)
    (hnd : (ps.map CuePoint.id).Nodup) :
    getMarkers (associateCueLabels cs)
      = ps.map (applyLabelMap (collectAdtlLabels cs)) := by
  unfold associateCueLabels
  rw [hcue]
  show getMarkers (setFirstCue cs (assocPoints cs ps))
    = ps.map (applyLabelMap (collectAdtlLabels cs))
  unfold getMarkers
  rw [getCueChunk_setFirstCue (assocPoints cs ps) hcue]
  show List.foldl applyChunkLabels (assocPoints cs ps) (setFirstCue cs (assocPoints cs ps))
    = ps.map (applyLabelMap (collectAdtlLabels cs))
  rw [foldl_applyChunkLabels]
  rw [collectAdtlLabels_setFirstCue]
  rw [foldl_setFirstLabel _ _ (by rw [assocPoints_map_id]; exact hnd)]
  unfold assocPoints
  rw [List.map_map]
  apply List.map_congr_left
  intro p _
  exact applyLabelMap_idem _ p

/-- C1 witness: two cue points with ids 1 and 2 (stored at positions 5 and
3) and a `LIST/adtl` chunk labelling id 2 as "B" yield exactly the stored
points with the join applied. -/
theorem getMarkers_join_witness :
    getMarkers (associateCueLabels
      [ RChunk.cue
          [ { id := 1, position := 5, dataChunkId := 0, chunkStart := 0
            , blockStart := 0, sampleOffset := 5, label := "" }
          , { id := 2, position := 3, dataChunkId := 0, chunkStart := 0
            , blockStart := 0, sampleOffset := 3, label := "" } ]
      , RChunk.list (fourCC "adtl") [SubChunk.labl 2 "B", SubChunk.unknown 7] ])
      = [ { id := 1, position := 5, dataChunkId := 0, chunkStart := 0
          , blockStart := 0, sampleOffset := 5, label := "" }
        , { id := 2, position := 3, dataChunkId := 0, chunkStart := 0
          , blockStart := 0, sampleOffset := 3, label := "B" } ] := by
  rw [getMarkers_join _
    [ { id := 1, position := 5, dataChunkId := 0, chunkStart := 0
      , blockStart := 0, sampleOffset := 5, label := "" }
    , { id := 2, position := 3, dataChunkId := 0, chunkStart := 0
      , blockStart := 0, sampleOffset := 3, label := "" } ]
    (by rfl) (by decide)]
  rfl

/-- C1 counterexample: a file inside the claim's domain — it holds a
`cue ` chunk (points stored at positions 10 then 5) and a `LIST/adtl`
chunk with a `labl` sub-chunk labelling id 1 — on which `getMarkers`
returns the points in stored order 10, 5, which is not sorted by
position; this refutes the claim's "the returned list is sorted by
position". -/
theorem getMarkers_not_sorted_counterexample :
    getCueChunk
      [ RChunk.cue
          [ { id := 1, position := 10, dataChunkId := 0, chunkStart := 0
            , blockStart := 0, sampleOffset := 10, label := "" }
          , { id := 2, position := 5, dataChunkId := 0, chunkStart := 0
            , blockStart := 0, sampleOffset := 5, label := "" } ]
      , RChunk.list (fourCC "adtl") [SubChunk.labl 1 "A"] ]
      = some
          [ { id := 1, position := 10, dataChunkId := 0, chunkStart := 0
            , blockStart := 0, sampleOffset := 10, label := "" }
          , { id := 2, position := 5, dataChunkId := 0, chunkStart := 0
            , blockStart := 0, sampleOffset := 5, label := "" } ]
  ∧ RChunk.list (fourCC "adtl") [SubChunk.labl 1 "A"] ∈
      [ RChunk.cue
          [ { id := 1, position := 10, dataChunkId := 0, chunkStart := 0
            , blockStart := 0, sampleOffset := 10, label := "" }
          , { id := 2, position := 5, dataChunkId := 0, chunkStart := 0
            , blockStart := 0, sampleOffset := 5, label := "" } ]
      , RChunk.list (fourCC "adtl") [SubChunk.labl 1 "A"] ]
  ∧ ¬ sortedByPosition (getMarkers (associateCueLabels
      [ RChunk.cue
          [ { id := 1, position := 10, dataChunkId := 0, chunkStart := 0
            , blockStart := 0, sampleOffset := 10, label := "" }
          , { id := 2, position := 5, dataChunkId := 0, chunkStart := 0
            , blockStart := 0, sampleOffset := 5, label := "" } ]
      , RChunk.list (fourCC "adtl") [SubChunk.labl 1 "A"] ])) := by
  refine ⟨rfl, by simp, ?_⟩
  intro h
  have hmarkers : getMarkers (associateCueLabels
      [ RChunk.cue
          [ { id := 1, position := 10, dataChunkId := 0, chunkStart := 0
            , blockStart := 0, sampleOffset := 10, label := "" }
          , { id := 2, position := 5, dataChunkId := 0, chunkStart := 0
            , blockStart := 0, sampleOffset := 5, label := "" } ]
      , RChunk.list (fourCC "adtl") [SubChunk.labl 1 "A"] ])
      = [ { id := 1, position := 10, dataChunkId := 0, chunkStart := 0
          , blockStart := 0, sampleOffset := 10, label := "A" }
        , { id := 2, position := 5, dataChunkId := 0, chunkStart := 0
          , blockStart := 0, sampleOffset := 5, label := "" } ] := rfl
  rw [hmarkers] at h
  rcases List.pairwise_cons.mp h with ⟨hall, -⟩
  have h10 := hall _ (List.mem_cons_self _ _)
  exact absurd h10 (by decide)

end Bw64
